import Mathlib

/-!
Verification of the `typesafe_units` (TU) C++ header against its
natural-language specification.

The header is a compile-time dimensional-analysis library.  A value's
dimension vector is a 7-tuple of `std::ratio` (reduced rational) exponents
carried in the type; the numeric payload `base_value` is the value expressed
in coherent SI terms.  The embedding below represents the dimension vector as
data (`Dims`, a 7-tuple of `ℚ`; `std::ratio` is always reduced, exactly as
`ℚ` is), and represents "this operation compiles only when ..." as functions
into `Option`, where `none` models compile-time rejection by the `requires`
clause and `some` models successful instantiation.  The numeric payload
(`TU_TYPE`, a host floating-point type) is embedded as `ℚ`, following the
spec's real-arithmetic reading of the payload formulas; the host's
real-valued `std::pow` (library code outside this repository) is passed as an
abstract function where needed.

The repository header contains two snapshots of `Non_coherent_unit` whose
`requires` clauses differ; both are embedded (`mkNCU_fst`, `mkNCU_snd`).
-/

namespace TU

/-- The seven rational dimension exponents of `Coherent_unit_base`, in the
source's fixed order: time (s), length (m), mass (kg), electric current (A),
thermodynamic temperature (K), amount of substance (mol), luminous
intensity (cd).  Each `std::ratio` template argument is a reduced rational,
embedded as `ℚ`. -/
structure Dims where
  s : ℚ
  m : ℚ
  kg : ℚ
  A : ℚ
  K : ℚ
  mol : ℚ
  cd : ℚ
deriving DecidableEq

/-- `internal::pow10<exp>()`: compile-time 10^exp (exact in the rational
embedding). -/
def pow10 (e : ℤ) : ℚ := (10 : ℚ) ^ e

/-- `internal::fraction(R)`: the ratio's numerator divided by its denominator,
as a number. -/
def fraction (r : ℚ) : ℚ := (r.num : ℚ) / (r.den : ℚ)

/-- A `Coherent_unit_base<p...>` value: the dimension vector given by the
template arguments, together with the payload field `base_value`. -/
structure CUB where
  dims : Dims
  base_value : ℚ
deriving DecidableEq

/-- `operator+` on `Coherent_unit_base<Args...>`: both operands must have the
identical template-argument pack (identical dimension vector) for the overload
to exist; `none` models the compile-time rejection.  The result keeps the
operands' dimension vector and sums the `base_value`s. -/
def addCUB (l r : CUB) : Option CUB :=
  if l.dims = r.dims then some ⟨l.dims, l.base_value + r.base_value⟩ else none

/-- `operator-` on `Coherent_unit_base<Args...>`: same compile-time constraint
as `operator+`; the result subtracts the `base_value`s. -/
def subCUB (l r : CUB) : Option CUB :=
  if l.dims = r.dims then some ⟨l.dims, l.base_value - r.base_value⟩ else none

/-- The element-wise `Plus` fold of `internal::binary_op_args` over the seven
ratio packs (`std::ratio_add` at every position, in the fixed order). -/
def mulDims (a b : Dims) : Dims :=
  ⟨a.s + b.s, a.m + b.m, a.kg + b.kg, a.A + b.A, a.K + b.K, a.mol + b.mol, a.cd + b.cd⟩

/-- The element-wise `Minus` fold of `internal::binary_op_args`
(`std::ratio_subtract` at every position). -/
def divDims (a b : Dims) : Dims :=
  ⟨a.s - b.s, a.m - b.m, a.kg - b.kg, a.A - b.A, a.K - b.K, a.mol - b.mol, a.cd - b.cd⟩

/-- `operator*`: result type from the `Plus` fold, payload
`l.base_value * r.base_value`. -/
def mulCUB (l r : CUB) : CUB := ⟨mulDims l.dims r.dims, l.base_value * r.base_value⟩

/-- `operator/`: result type from the `Minus` fold, payload
`l.base_value / r.base_value`.  Division is total here (rational convention),
mirroring that the source performs an unguarded floating-point division. -/
def divCUB (l r : CUB) : CUB := ⟨divDims l.dims r.dims, l.base_value / r.base_value⟩

/-- The element-wise `Multiply` fold of `internal::binary_op_args_num`
(`std::ratio_multiply` of every exponent with the fixed ratio `r`). -/
def smulDims (a : Dims) (r : ℚ) : Dims :=
  ⟨a.s * r, a.m * r, a.kg * r, a.A * r, a.K * r, a.mol * r, a.cd * r⟩

/-- `pow<exp>(u)`: exponents from the `Multiply` fold; payload
`std::pow(u.base_value, fraction(exp()))`.  Modelled from the spec: the host's
real-valued power function (`std::pow` from `<cmath>`, not part of this
repository) is passed abstractly as `hostPow`. -/
def powCUB (hostPow : ℚ → ℚ → ℚ) (e : ℚ) (u : CUB) : CUB :=
  ⟨smulDims u.dims e, hostPow u.base_value (fraction e)⟩

/-- `sqrt(u)`: the source returns `pow<std::ratio<1,2>>(u)` verbatim. -/
def sqrtCUB (hostPow : ℚ → ℚ → ℚ) (u : CUB) : CUB :=
  powCUB hostPow ((1 : ℚ)/2) u

/-- `internal::are_args_zero<p...>()`: true iff every ratio argument has
numerator 0 (the recursion returns `false` at the first nonzero numerator). -/
def are_args_zero (d : Dims) : Bool :=
  d.s.num == 0 && d.m.num == 0 && d.kg.num == 0 && d.A.num == 0 &&
  d.K.num == 0 && d.mol.num == 0 && d.cd.num == 0

/-- `Coherent_unit_base::is_scalar()`: forwards to `are_args_zero`. -/
def is_scalar (d : Dims) : Bool := are_args_zero d

/-- A unit type as the header builds it: either a coherent unit (a
`Coherent_unit_base` specialisation, `base_multiplier` 1 and `base_adder` 0),
or a `Non_coherent_unit<multiplier, adder, Parent>` over a parent unit. -/
inductive UnitDef where
  | coh (d : Dims)
  | ncu (mult add : ℚ) (parent : UnitDef)
deriving DecidableEq

/-- `base_multiplier`: 1 on `Coherent_unit_base`; on `Non_coherent_unit` the
source sets `Parent_unit::base_multiplier * multiplier`. -/
def base_multiplier : UnitDef → ℚ
  | .coh _ => 1
  | .ncu mult _ p => base_multiplier p * mult

/-- `base_adder`: 0 on `Coherent_unit_base`; on `Non_coherent_unit` the source
sets `Parent_unit::base_adder + adder * multiplier`. -/
def base_adder : UnitDef → ℚ
  | .coh _ => 0
  | .ncu mult a p => base_adder p + a * mult

/-- `U::Base`, the dimensional root: `Coherent_unit_base` is its own `Base`;
`Non_coherent_unit` takes `typename Parent_unit::Base`. -/
def rootDims : UnitDef → Dims
  | .coh d => d
  | .ncu _ _ p => rootDims p

/-- The first header snapshot's `requires` clause on `Non_coherent_unit`:
`multiplier != (TU_TYPE)1.0 || adder != (TU_TYPE)0.0`.  `none` means the
definition is rejected at compile time. -/
def mkNCU_fst (mult a : ℚ) (p : UnitDef) : Option UnitDef :=
  if mult ≠ 1 ∨ a ≠ 0 then some (.ncu mult a p) else none

/-- The second header snapshot's `requires` clause on `Non_coherent_unit`:
`multiplier != (TU_TYPE)0.0`. -/
def mkNCU_snd (mult a : ℚ) (p : UnitDef) : Option UnitDef :=
  if mult ≠ 0 then some (.ncu mult a p) else none

/-- A unit whose every `Non_coherent_unit` link satisfies the second
snapshot's clause `multiplier != 0` (the spec's §3 invariant). -/
def wellFormedB : UnitDef → Bool
  | .coh _ => true
  | .ncu mult _ p => mult != 0 && wellFormedB p

/-- A `Unit<pf, U>` value: the prefix exponent `pf`, the unit type `u`, the
unit-local field `value`, and the inherited `base_value`. -/
structure UnitVal where
  pf : ℤ
  u : UnitDef
  value : ℚ
  base_value : ℚ
deriving DecidableEq

/-- The `Unit(TU_TYPE v)` constructor: `value = v` and, through the
`Coherent_unit_base` converting constructor,
`base_value = v * U::base_multiplier * pow10<(int)pf>() + U::base_adder`. -/
def mkUnit (pf : ℤ) (u : UnitDef) (v : ℚ) : UnitVal :=
  ⟨pf, u, v, v * base_multiplier u * pow10 pf + base_adder u⟩

/-- `convert_to<to_prefix, To_unit>(from)`: compiles only when
`From_unit::Base` equals `To_unit::Base` (`none` models the rejection), and
returns `Unit<to_prefix, To_unit>` built from
`(from.base_value - To_unit::base_adder) * pow10<-(int)to_prefix>() / To_unit::base_multiplier`. -/
def convert_to (toPf : ℤ) (toU : UnitDef) (src : UnitVal) : Option UnitVal :=
  if rootDims src.u = rootDims toU then
    some (mkUnit toPf toU
      ((src.base_value - base_adder toU) * pow10 (-toPf) / base_multiplier toU))
  else none

/-- A `Unit` object seen through its `Coherent_unit_base` subobject (the
slice on which the defaulted `operator <=>` acts). -/
def toCUB (a : UnitVal) : CUB := ⟨rootDims a.u, a.base_value⟩

/-- The three-way result of the defaulted
`operator <=> (const Coherent_unit_base<p...>&)`: the empty
`Unit_fundament` base compares equal, so the comparison is decided by the
single member `base_value`. -/
def cmpQ (x y : ℚ) : Ordering :=
  if x < y then .lt else if x = y then .eq else .gt

/-- The defaulted `operator <=>` itself: it exists only between two operands
of the same `Coherent_unit_base<p...>` type (identical dimension vector);
`none` models the compile-time rejection. -/
def cmpCUB (l r : CUB) : Option Ordering :=
  if l.dims = r.dims then some (cmpQ l.base_value r.base_value) else none

/-- `l < r`, rewritten through the defaulted spaceship. -/
def ltCUB (l r : CUB) : Option Bool := (cmpCUB l r).map (· == Ordering.lt)

/-- `l <= r`, rewritten through the defaulted spaceship. -/
def leCUB (l r : CUB) : Option Bool := (cmpCUB l r).map (· != Ordering.gt)

/-- `l > r`, rewritten through the defaulted spaceship. -/
def gtCUB (l r : CUB) : Option Bool := (cmpCUB l r).map (· == Ordering.gt)

/-- `l >= r`, rewritten through the defaulted spaceship. -/
def geCUB (l r : CUB) : Option Bool := (cmpCUB l r).map (· != Ordering.lt)

/-- `l == r` (implicitly defaulted alongside the spaceship). -/
def eqCUB (l r : CUB) : Option Bool := (cmpCUB l r).map (· == Ordering.eq)

/-- `l != r` (implicitly defaulted alongside the spaceship). -/
def neCUB (l r : CUB) : Option Bool := (cmpCUB l r).map (· != Ordering.eq)

/-- Comparison of two prefixed `Unit` values: overload resolution finds the
base-class `operator <=>`, so the objects are compared through their common
`Coherent_unit_base` slice, i.e. by `base_value`. -/
def cmpUnit (a b : UnitVal) : Option Ordering := cmpCUB (toCUB a) (toCUB b)

/-- `a < b` on prefixed `Unit` values, via the base-class spaceship. -/
def ltUnit (a b : UnitVal) : Option Bool := ltCUB (toCUB a) (toCUB b)

/-- `unop<op>(const Unit<pf, U>&)`: the `requires (Unit<pf, U>::is_scalar())`
clause gates the instantiation (`none` = rejected); when accepted the source
returns `create_coherent_unit(typename U::Base(op(u.base_value)))`, a coherent
value on `U`'s dimensional root with payload `op(u.base_value)`. -/
def unop (op : ℚ → ℚ) (uv : UnitVal) : Option CUB :=
  if is_scalar (rootDims uv.u) then some ⟨rootDims uv.u, op uv.base_value⟩ else none

/-- The second `unop` overload, on a coherent value `U` directly:
`requires (U::is_scalar())`, returns `U(op(u.base_value))`. -/
def unopCUB (op : ℚ → ℚ) (c : CUB) : Option CUB :=
  if is_scalar c.dims then some ⟨c.dims, op c.base_value⟩ else none

/-- `tu::second`. -/
def secondU : UnitDef := .coh ⟨1, 0, 0, 0, 0, 0, 0⟩

/-- `tu::metre`. -/
def metreU : UnitDef := .coh ⟨0, 1, 0, 0, 0, 0, 0⟩

/-- `tu::kelvin`. -/
def kelvinU : UnitDef := .coh ⟨0, 0, 0, 0, 1, 0, 0⟩

/-- `tu::radian` (a scalar coherent unit: all exponents zero). -/
def radianU : UnitDef := .coh ⟨0, 0, 0, 0, 0, 0, 0⟩

/-- `tu::minute = Non_coherent_unit<60.0, 0.0, second>`. -/
def minuteU : UnitDef := .ncu 60 0 secondU

/-- `tu::hour = Non_coherent_unit<60.0, 0.0, minute>`. -/
def hourU : UnitDef := .ncu 60 0 minuteU

/-- `tu::day = Non_coherent_unit<24.0, 0.0, hour>`. -/
def dayU : UnitDef := .ncu 24 0 hourU

/-- `tu::degree_Celsius = Non_coherent_unit<1.0, 273.15, kelvin>`. -/
def degreeCelsiusU : UnitDef := .ncu 1 (27315/100) kelvinU

/-- C1: addition and subtraction exist only between operands of structurally
identical dimension vectors (compile-time rejection otherwise); when defined,
the result keeps that dimension vector and its `base_value` is the sum
(for +) or difference (for -) of the operands' `base_value` fields. -/
theorem C1_add_sub (l r : CUB) :
    ((addCUB l r).isSome ↔ l.dims = r.dims) ∧
    ((subCUB l r).isSome ↔ l.dims = r.dims) ∧
    (l.dims = r.dims →
      addCUB l r = some ⟨l.dims, l.base_value + r.base_value⟩ ∧
      subCUB l r = some ⟨l.dims, l.base_value - r.base_value⟩) := by
  refine ⟨?_, ?_, ?_⟩ <;> simp [addCUB, subCUB]

/-- C1 witness: concrete evaluation at two values of the dimension vector of
`second`. -/
theorem C1_add_sub_witness :
    addCUB ⟨⟨1, 0, 0, 0, 0, 0, 0⟩, 2⟩ ⟨⟨1, 0, 0, 0, 0, 0, 0⟩, 3⟩
      = some ⟨⟨1, 0, 0, 0, 0, 0, 0⟩, 5⟩ ∧
    subCUB ⟨⟨1, 0, 0, 0, 0, 0, 0⟩, 2⟩ ⟨⟨1, 0, 0, 0, 0, 0, 0⟩, 3⟩
      = some ⟨⟨1, 0, 0, 0, 0, 0, 0⟩, -1⟩ := by
  have h := (C1_add_sub ⟨⟨1, 0, 0, 0, 0, 0, 0⟩, 2⟩ ⟨⟨1, 0, 0, 0, 0, 0, 0⟩, 3⟩).2.2 rfl
  exact ⟨by rw [h.1]; norm_num, by rw [h.2]; norm_num⟩

/-- C3: `operator*` adds the two dimension vectors' rational exponents at all
seven positions and multiplies the payloads; `operator/` subtracts the
exponents at all seven positions and divides the payloads (the division is
unguarded: it is total in the embedding, never trapped). -/
theorem C3_mul_div (a b : CUB) :
    (mulCUB a b).dims.s = a.dims.s + b.dims.s ∧
    (mulCUB a b).dims.m = a.dims.m + b.dims.m ∧
    (mulCUB a b).dims.kg = a.dims.kg + b.dims.kg ∧
    (mulCUB a b).dims.A = a.dims.A + b.dims.A ∧
    (mulCUB a b).dims.K = a.dims.K + b.dims.K ∧
    (mulCUB a b).dims.mol = a.dims.mol + b.dims.mol ∧
    (mulCUB a b).dims.cd = a.dims.cd + b.dims.cd ∧
    (mulCUB a b).base_value = a.base_value * b.base_value ∧
    (divCUB a b).dims.s = a.dims.s - b.dims.s ∧
    (divCUB a b).dims.m = a.dims.m - b.dims.m ∧
    (divCUB a b).dims.kg = a.dims.kg - b.dims.kg ∧
    (divCUB a b).dims.A = a.dims.A - b.dims.A ∧
    (divCUB a b).dims.K = a.dims.K - b.dims.K ∧
    (divCUB a b).dims.mol = a.dims.mol - b.dims.mol ∧
    (divCUB a b).dims.cd = a.dims.cd - b.dims.cd ∧
    (divCUB a b).base_value = a.base_value / b.base_value := by
  refine ⟨rfl, rfl, rfl, rfl, rfl, rfl, rfl, rfl, rfl, rfl, rfl, rfl, rfl, rfl, rfl, rfl⟩

/-- C2: the `Unit<pf, U>(v)` constructor sets
`base_value = v * U::base_multiplier * 10^pf + U::base_adder` and `value = v`;
`convert_to<toPf, To_unit>` instantiates exactly when the dimensional roots
(`Base`) agree, and then the returned unit's `value` is
`(src.base_value - To_unit::base_adder) * 10^(-toPf) / To_unit::base_multiplier`. -/
theorem C2_construct_convert (pf : ℤ) (u : UnitDef) (v : ℚ)
    (toPf : ℤ) (toU : UnitDef) (src : UnitVal) :
    ((mkUnit pf u v).base_value = v * base_multiplier u * pow10 pf + base_adder u ∧
     (mkUnit pf u v).value = v) ∧
    ((convert_to toPf toU src).isSome ↔ rootDims src.u = rootDims toU) ∧
    (∀ res, convert_to toPf toU src = some res →
      res.value = (src.base_value - base_adder toU) * pow10 (-toPf) / base_multiplier toU) := by
  refine ⟨⟨rfl, rfl⟩, ?_, ?_⟩
  · simp [convert_to]
  · intro res h
    unfold convert_to at h
    split at h
    · cases h; rfl
    · cases h

/-- C2 witness: 1 minute converted to milliseconds has `value` 60000. -/
theorem C2_construct_convert_witness :
    ∃ res, convert_to (-3) secondU (mkUnit 0 minuteU 1) = some res ∧
      res.value = ((mkUnit 0 minuteU 1).base_value - base_adder secondU)
        * pow10 (-(-3)) / base_multiplier secondU ∧
      res.value = 60000 := by
  refine ⟨_, rfl,
    (C2_construct_convert 0 minuteU 1 (-3) secondU (mkUnit 0 minuteU 1)).2.2 _ rfl, ?_⟩
  norm_num [convert_to, mkUnit, minuteU, secondU, base_multiplier, base_adder, rootDims, pow10]

/-- C4: `pow<e>(a)` multiplies every one of the seven rational exponents by
`e` and its payload is the host power function applied to `a.base_value` and
`fraction(e)`, which is exactly the rational value num/den of `e`; and `sqrt`
is, by definition, `pow<std::ratio<1,2>>`. -/
theorem C4_pow_sqrt (hostPow : ℚ → ℚ → ℚ) (e : ℚ) (a : CUB) :
    (powCUB hostPow e a).dims.s = a.dims.s * e ∧
    (powCUB hostPow e a).dims.m = a.dims.m * e ∧
    (powCUB hostPow e a).dims.kg = a.dims.kg * e ∧
    (powCUB hostPow e a).dims.A = a.dims.A * e ∧
    (powCUB hostPow e a).dims.K = a.dims.K * e ∧
    (powCUB hostPow e a).dims.mol = a.dims.mol * e ∧
    (powCUB hostPow e a).dims.cd = a.dims.cd * e ∧
    (powCUB hostPow e a).base_value = hostPow a.base_value (fraction e) ∧
    fraction e = e ∧
    sqrtCUB hostPow a = powCUB hostPow ((1 : ℚ)/2) a := by
  refine ⟨rfl, rfl, rfl, rfl, rfl, rfl, rfl, rfl, ?_, rfl⟩
  exact Rat.num_div_den e

/-- C5: the `Non_coherent_unit` accumulation laws
`base_multiplier(child) = base_multiplier(parent) * multiplier(child)` and
`base_adder(child) = base_adder(parent) + adder(child) * multiplier(child)`
hold exactly at every link of the ancestor chain, and down the chain
hour → minute → second the accumulated `hour::base_multiplier` is
exactly 3600. -/
theorem C5_affine_chain (mult a : ℚ) (p : UnitDef) :
    base_multiplier (.ncu mult a p) = base_multiplier p * mult ∧
    base_adder (.ncu mult a p) = base_adder p + a * mult ∧
    base_multiplier hourU = 3600 ∧
    base_adder hourU = 0 := by
  refine ⟨rfl, rfl, by norm_num [hourU, minuteU, secondU, base_multiplier], by
    norm_num [hourU, minuteU, secondU, base_adder]⟩

/-- C6 counterexample: the first header snapshot's requires clause
`multiplier != 1.0 || adder != 0.0` accepts a `Non_coherent_unit` whose
multiplier is 0 (here `Non_coherent_unit<0, 5, second>`), so it is not the
case that every instantiable `Non_coherent_unit` has nonzero multiplier. -/
theorem C6_counterexample :
    mkNCU_fst 0 5 secondU = some (UnitDef.ncu 0 5 secondU) ∧
    ¬ (∀ (mult a : ℚ) (p u : UnitDef), mkNCU_fst mult a p = some u → mult ≠ 0) := by
  constructor
  · decide
  · intro h
    exact h 0 5 secondU (UnitDef.ncu 0 5 secondU) (by decide) rfl

/-- C6 amended: under the second header snapshot's requires clause
`multiplier != 0.0`, a `Non_coherent_unit` definition with multiplier 0 is
rejected at definition time, and every instantiable `Non_coherent_unit` has a
nonzero multiplier; the first snapshot's clause does not enforce this. -/
theorem C6_snd_rejects_zero (mult a : ℚ) (p u : UnitDef) :
    mkNCU_snd 0 a p = none ∧
    (mkNCU_snd mult a p = some u → mult ≠ 0) := by
  constructor
  · simp [mkNCU_snd]
  · intro h
    unfold mkNCU_snd at h
    split at h
    · assumption
    · cases h

/-- C6 witness: `minute = Non_coherent_unit<60, 0, second>` is accepted by the
second snapshot's clause, and its multiplier is nonzero. -/
theorem C6_snd_rejects_zero_witness : (60 : ℚ) ≠ 0 :=
  (C6_snd_rejects_zero 60 0 secondU (UnitDef.ncu 60 0 secondU)).2 (by decide)

/-- A unit whose every link satisfies `multiplier != 0` has a nonzero
accumulated `base_multiplier` (product of the links). -/
theorem base_multiplier_ne_zero (u : UnitDef) (h : wellFormedB u = true) :
    base_multiplier u ≠ 0 := by
  induction u with
  | coh d => simp [base_multiplier]
  | ncu mult a p ih =>
    rw [wellFormedB, Bool.and_eq_true, bne_iff_ne] at h
    rw [base_multiplier]
    exact mul_ne_zero (ih h.2) h.1

/-- Constructing `Unit<pf, u>` from the `convert_to` value formula reproduces
the original `base_value` whenever the unit's accumulated multiplier is
nonzero (the affine map is invertible). -/
theorem mkUnit_inverts (b : ℚ) (pf : ℤ) (u : UnitDef)
    (h : base_multiplier u ≠ 0) :
    (mkUnit pf u ((b - base_adder u) * pow10 (-pf) / base_multiplier u)).base_value = b := by
  have h10 : pow10 pf ≠ 0 := zpow_ne_zero _ (by norm_num)
  rw [mkUnit, pow10, pow10, zpow_neg]
  field_simp
  ring

/-- The unit type recorded by a freshly constructed `Unit<pf, u>` is `u`. -/
theorem mkUnit_u (pf : ℤ) (u : UnitDef) (v : ℚ) : (mkUnit pf u v).u = u := rfl

/-- C7: converting a unit value to any prefix/unit sharing its dimensional
root and then converting back to the original prefix and unit reproduces the
original `base_value` exactly (in the exact-arithmetic embedding), for any
well-formed (nonzero-multiplier) units. -/
theorem C7_round_trip (src : UnitVal) (qf : ℤ) (vU : UnitDef)
    (hdim : rootDims src.u = rootDims vU)
    (hv : wellFormedB vU = true) (hu : wellFormedB src.u = true) :
    ((convert_to qf vU src).bind (convert_to src.pf src.u)).map UnitVal.base_value
      = some src.base_value := by
  rw [convert_to, if_pos hdim, Option.some_bind, convert_to, mkUnit_u,
    if_pos hdim.symm, Option.map_some',
    mkUnit_inverts _ _ _ (base_multiplier_ne_zero src.u hu),
    mkUnit_inverts _ _ _ (base_multiplier_ne_zero vU hv)]

/-- C7 witness: 1 minute, converted to milliseconds and back to an unprefixed
minute, reproduces its `base_value` of 60 seconds. -/
theorem C7_round_trip_witness :
    ((convert_to (-3) secondU (mkUnit 0 minuteU 1)).bind
        (convert_to (mkUnit 0 minuteU 1).pf (mkUnit 0 minuteU 1).u)).map UnitVal.base_value
      = some (mkUnit 0 minuteU 1).base_value :=
  C7_round_trip (mkUnit 0 minuteU 1) (-3) secondU (by decide) (by decide) (by decide)

/-- C8: `unop` instantiates exactly when the operand's dimension vector is
scalar (`none` models the compile-time rejection); when it does, the result is
a coherent value on the operand's (scalar) dimensional root whose `base_value`
is the function applied to the operand's `base_value`; and `is_scalar` holds
iff every one of the seven rational exponents has numerator 0. -/
theorem C8_unop (op : ℚ → ℚ) (uv : UnitVal) (c : CUB) (d : Dims) :
    ((unop op uv).isSome ↔ is_scalar (rootDims uv.u) = true) ∧
    (is_scalar (rootDims uv.u) = true →
      unop op uv = some ⟨rootDims uv.u, op uv.base_value⟩) ∧
    (∀ res, unop op uv = some res →
      is_scalar res.dims = true ∧ res.base_value = op uv.base_value) ∧
    ((unopCUB op c).isSome ↔ is_scalar c.dims = true) ∧
    (is_scalar c.dims = true → unopCUB op c = some ⟨c.dims, op c.base_value⟩) ∧
    (is_scalar d = true ↔
      (d.s.num = 0 ∧ d.m.num = 0 ∧ d.kg.num = 0 ∧ d.A.num = 0 ∧
       d.K.num = 0 ∧ d.mol.num = 0 ∧ d.cd.num = 0)) := by
  refine ⟨?_, ?_, ?_, ?_, ?_, ?_⟩
  · simp [unop]
  · intro h; simp [unop, h]
  · intro res h
    unfold unop at h
    split at h
    · cases h; exact ⟨by assumption, rfl⟩
    · cases h
  · simp [unopCUB]
  · intro h; simp [unopCUB, h]
  · simp [is_scalar, are_args_zero, Bool.and_eq_true, beq_iff_eq, and_assoc]

/-- C8 witness: applying a unary function to 2 radians (a scalar unit value)
is accepted and yields payload 3. -/
theorem C8_unop_witness :
    unop (fun x => x + 1) (mkUnit 0 radianU 2)
      = some ⟨rootDims (mkUnit 0 radianU 2).u, (fun x => x + 1) (mkUnit 0 radianU 2).base_value⟩ :=
  (C8_unop (fun x => x + 1) (mkUnit 0 radianU 2) ⟨⟨0, 0, 0, 0, 0, 0, 0⟩, 0⟩
    ⟨0, 0, 0, 0, 0, 0, 0⟩).2.1 (by decide)

/-- Boolean equality on `Ordering` agrees with propositional equality. -/
theorem ordering_beq_iff (o o' : Ordering) : (o == o') = true ↔ o = o' := by
  cases o <;> cases o' <;> decide

/-- Boolean disequality on `Ordering` agrees with propositional disequality. -/
theorem ordering_bne_iff (o o' : Ordering) : (o != o') = true ↔ ¬ o = o' := by
  cases o <;> cases o' <;> decide

/-- The three-way comparison of `base_value`s is the order on `ℚ`. -/
theorem cmpQ_spec (x y : ℚ) :
    (cmpQ x y = .lt ↔ x < y) ∧ (cmpQ x y = .eq ↔ x = y) ∧ (cmpQ x y = .gt ↔ y < x) := by
  unfold cmpQ
  rcases lt_trichotomy x y with h | h | h
  · simp [h, h.ne, not_lt_of_gt h]
  · simp [h, lt_irrefl]
  · simp [h, h.ne', not_lt_of_gt h, lt_asymm h]

/-- C9: each comparison operator exists only between operands of identical
dimension vector (`none` models the compile-time rejection) and, when defined,
is decided by the `base_value` fields alone; two prefixed `Unit` values of the
same dimensional root are likewise compared through their `base_value`, so
differing prefixes of one unit compare correctly: 5 mm < 1 m. -/
theorem C9_compare (l r : CUB) (a b : UnitVal) :
    ((cmpCUB l r).isSome ↔ l.dims = r.dims) ∧
    ((ltCUB l r).isSome ↔ l.dims = r.dims) ∧
    ((leCUB l r).isSome ↔ l.dims = r.dims) ∧
    ((gtCUB l r).isSome ↔ l.dims = r.dims) ∧
    ((geCUB l r).isSome ↔ l.dims = r.dims) ∧
    ((eqCUB l r).isSome ↔ l.dims = r.dims) ∧
    ((neCUB l r).isSome ↔ l.dims = r.dims) ∧
    (l.dims = r.dims →
      (ltCUB l r = some true ↔ l.base_value < r.base_value) ∧
      (leCUB l r = some true ↔ l.base_value ≤ r.base_value) ∧
      (gtCUB l r = some true ↔ r.base_value < l.base_value) ∧
      (geCUB l r = some true ↔ r.base_value ≤ l.base_value) ∧
      (eqCUB l r = some true ↔ l.base_value = r.base_value) ∧
      (neCUB l r = some true ↔ l.base_value ≠ r.base_value)) ∧
    ((cmpUnit a b).isSome ↔ rootDims a.u = rootDims b.u) ∧
    (rootDims a.u = rootDims b.u →
      (ltUnit a b = some true ↔ a.base_value < b.base_value)) ∧
    ltUnit (mkUnit (-3) metreU 5) (mkUnit 0 metreU 1) = some true := by
  have hspec := cmpQ_spec l.base_value r.base_value
  refine ⟨?_, ?_, ?_, ?_, ?_, ?_, ?_, ?_, ?_, ?_, ?_⟩
  · simp [cmpCUB]
  · simp [ltCUB, cmpCUB]
  · simp [leCUB, cmpCUB]
  · simp [gtCUB, cmpCUB]
  · simp [geCUB, cmpCUB]
  · simp [eqCUB, cmpCUB]
  · simp [neCUB, cmpCUB]
  · intro hd
    refine ⟨?_, ?_, ?_, ?_, ?_, ?_⟩
    · simp [ltCUB, cmpCUB, hd]
      rw [ordering_beq_iff]
      exact hspec.1
    · simp [leCUB, cmpCUB, hd]
      rw [ordering_bne_iff, hspec.2.2, not_lt]
    · simp [gtCUB, cmpCUB, hd]
      rw [ordering_beq_iff]
      exact hspec.2.2
    · simp [geCUB, cmpCUB, hd]
      rw [ordering_bne_iff, hspec.1, not_lt]
    · simp [eqCUB, cmpCUB, hd]
      rw [ordering_beq_iff]
      exact hspec.2.1
    · simp [neCUB, cmpCUB, hd]
      rw [ordering_bne_iff, hspec.2.1]
  · simp [cmpUnit, cmpCUB, toCUB]
  · intro hd
    simp [ltUnit, ltCUB, cmpCUB, toCUB, hd]
    rw [ordering_beq_iff]
    exact (cmpQ_spec a.base_value b.base_value).1
  · norm_num [ltUnit, ltCUB, cmpCUB, toCUB, mkUnit, metreU, rootDims, cmpQ,
      base_multiplier, base_adder, pow10]
    rfl

/-- C9 witness: two values of identical dimension vector, compared through
`base_value`. -/
theorem C9_compare_witness :
    ltCUB ⟨⟨1, 0, 0, 0, 0, 0, 0⟩, 2⟩ ⟨⟨1, 0, 0, 0, 0, 0, 0⟩, 3⟩ = some true := by
  have h := ((C9_compare ⟨⟨1, 0, 0, 0, 0, 0, 0⟩, 2⟩ ⟨⟨1, 0, 0, 0, 0, 0, 0⟩, 3⟩
    (mkUnit 0 metreU 0) (mkUnit 0 metreU 0)).2.2.2.2.2.2.2.1 rfl).1
  exact h.mpr (by norm_num)

/-- C10: the first header snapshot's requires clause is exactly
`multiplier != 1.0 || adder != 0.0`: the identity transform (1, 0) is rejected
at definition time, every instantiable `Non_coherent_unit` has
`(multiplier, adder)` different from `(1, 0)`, and every other pair is
accepted. -/
theorem C10_fst_identity (mult a : ℚ) (p u : UnitDef) :
    mkNCU_fst 1 0 p = none ∧
    (mkNCU_fst mult a p = some u → ¬(mult = 1 ∧ a = 0)) ∧
    ((mult ≠ 1 ∨ a ≠ 0) → mkNCU_fst mult a p = some (.ncu mult a p)) := by
  refine ⟨by simp [mkNCU_fst], ?_, ?_⟩
  · intro h hcon
    rw [hcon.1, hcon.2] at h
    simp [mkNCU_fst] at h
  · intro h
    rw [mkNCU_fst, if_pos h]

/-- C10 witness: `minute = Non_coherent_unit<60, 0, second>` is instantiable
in the first snapshot, hence its transform is not the identity. -/
theorem C10_fst_identity_witness : ¬((60 : ℚ) = 1 ∧ (0 : ℚ) = 0) :=
  (C10_fst_identity 60 0 secondU (UnitDef.ncu 60 0 secondU)).2.1 (by decide)

end TU
